import Mathlib

/-!
Verification development for the T-junction traffic simulation in `model2.py`.

The simulation core is embedded shallowly: positions and speeds are rationals
(the source uses Python floats but all the logic is order/arithmetic on small
exact constants), the per-tick stop timer is a natural number, and the
per-vehicle update `Car.move`, the right-of-way predicate `can_proceed`, the
spawn policy and the sequential per-tick update loop of `Simulation.run` are
translated function by function from the source.

A semantic point that matters throughout: the source compares members of the
two distinct Python enum classes `Direction` and `Destination` in several
places (`self.destination == self.direction` on lines 132 and 195, and
`car.destination == Direction.LEFT` on line 149).  Python enum members of
different Enum classes are never equal, so each of these comparisons is
constantly false; the embedding models them by the constantly-false
`destEqDir`, keeping the surrounding dead branches in place.
-/

/-! ## Geometry and physics constants (module-level constants of the source) -/

def WIDTH : ℚ := 800
def HEIGHT : ℚ := 800
def ROAD_LENGTH : ℚ := 500
def PIXELS_PER_METER : ℚ := WIDTH / ROAD_LENGTH
def FPS : ℚ := 30
def ACCELERATION : ℚ := 2
def MAX_DECELERATION : ℚ := 2

/-- `STOP_TIME = 60`: frames before a car resumes crossing. -/
def STOP_TIME : Nat := 60

def SPAWN_CLEARANCE : ℚ := 50 * PIXELS_PER_METER
def ROAD_WIDTH : ℚ := 100

/-- `LANE_WIDTH = ROAD_WIDTH // 2` (integer division of 100, exact). -/
def LANE_WIDTH : ℚ := 50

/-- `CENTER_X = WIDTH // 2` (integer division of 800, exact). -/
def CENTER_X : ℚ := 400

/-- `CENTER_Y = HEIGHT // 2`. -/
def CENTER_Y : ℚ := 400

def CAR_WIDTH : ℚ := 25
def CAR_HEIGHT : ℚ := 15

/-! ## Enums -/

/-- Possible movement directions (`class Direction(Enum)`). -/
inductive Direction
  | left
  | right
  | top
  | bottom
deriving DecidableEq

/-- Possible movement destinations (`class Destination(Enum)`). -/
inductive Destination
  | left
  | right
  | bottom
deriving DecidableEq

/-- Python `==` between a `Destination` member and a `Direction` member.
Members of distinct Python `Enum` classes compare unequal regardless of their
values, so this is constantly `false`.  The source performs this cross-enum
comparison at `model2.py` lines 132, 149 and 195. -/
def destEqDir (_d : Destination) (_dir : Direction) : Bool := false

/-- `STOP_POSITIONS` dictionary: per-direction stop line coordinate. -/
def stop_positions : Direction → ℚ
  | Direction.right => CENTER_X - ROAD_WIDTH / 2 - 20
  | Direction.left => CENTER_X + ROAD_WIDTH / 2 + 20
  | Direction.bottom => CENTER_Y - ROAD_WIDTH / 2 - 20
  | Direction.top => CENTER_Y + ROAD_WIDTH / 2 + 20

/-! ## The Car record

Fields are the attributes assigned in `Car.__init__` / `set_initial_position`.
The cosmetic fields `id` and `color` take no part in any simulation logic and
are omitted. -/

structure Car where
  direction : Direction
  destination : Destination
  max_speed : ℚ
  speed : ℚ
  stop_timer : Nat
  has_stopped_at_crossroad : Bool
  has_turned : Bool
  x : ℚ
  y : ℚ
  dx : ℚ
  dy : ℚ
  angle : ℚ
deriving DecidableEq

/-- `Car.assign_destination`: random valid destination for an entry direction;
the random draw is a `pick` parameter.  For `Direction.BOTTOM` the Python
method falls through all branches and returns `None`, modelled as `none`. -/
def assign_destination (direction : Direction) (pick : Bool) : Option Destination :=
  match direction with
  | Direction.right => some (if pick then Destination.right else Destination.bottom)
  | Direction.left => some (if pick then Destination.left else Destination.bottom)
  | Direction.top => some (if pick then Destination.left else Destination.right)
  | Direction.bottom => none

/-- `Car.set_initial_position`: `(x, y, dx, dy, angle)` per spawn direction.
The source has no branch for `Direction.TOP` (it is never spawned and the
attributes would stay unset); the embedding gives it zeros. -/
def initial_position : Direction → ℚ × ℚ × ℚ × ℚ × ℚ
  | Direction.right => (-CAR_WIDTH, CENTER_Y + LANE_WIDTH / 2, 1, 0, 0)
  | Direction.left => (WIDTH + CAR_WIDTH, CENTER_Y - LANE_WIDTH / 2, -1, 0, 0)
  | Direction.bottom => (CENTER_X - LANE_WIDTH / 2, HEIGHT + CAR_HEIGHT, 0, -1, 90)
  | Direction.top => (0, 0, 0, 0, 0)

/-- `Car.__init__`: a freshly spawned car.  `max_speed` is
`random.choice(MAX_SPEEDS)` with `MAX_SPEEDS = [20]`, hence always `20`;
`speed` is set to `max_speed`; the destination draw is the `pick` parameter
(`getD` is irrelevant for the two directions the spawner uses, whose
`assign_destination` is always `some`). -/
def spawnCar (direction : Direction) (pick : Bool) : Car :=
  let p := initial_position direction
  { direction := direction
    destination := (assign_destination direction pick).getD Destination.bottom
    max_speed := 20
    speed := 20
    stop_timer := 0
    has_stopped_at_crossroad := false
    has_turned := false
    x := p.1
    y := p.2.1
    dx := p.2.2.1
    dy := p.2.2.2.1
    angle := p.2.2.2.2 }

/-! ## Right-of-way (`Car.can_proceed`) -/

/-- The 50 m junction-proximity radius, in pixels. -/
def CROSSROAD_RANGE : ℚ := 50 * PIXELS_PER_METER

/-- The junction-proximity filter of `can_proceed`:
`abs(car.x - CENTER_X) <= CROSSROAD_RANGE or abs(car.y - CENTER_Y) <= CROSSROAD_RANGE`. -/
def in_crossroad (car : Car) : Bool :=
  decide (|car.x - CENTER_X| ≤ CROSSROAD_RANGE ∨ |car.y - CENTER_Y| ≤ CROSSROAD_RANGE)

/-- `Car.can_proceed`, flattened from the early-return chain of the source.
The first two alternatives are the source's `self.destination == self.direction`
block (dead because `destEqDir` is constantly false), and the
`car.destination == Direction.LEFT` comparison inside the right→bottom check is
the source's cross-enum comparison on line 149. -/
def can_proceed (self : Car) (other_cars : List Car) : Bool :=
  let cars_in_crossroad := other_cars.filter in_crossroad
  if destEqDir self.destination self.direction = true ∧ self.direction = Direction.right then
    true
  else if destEqDir self.destination self.direction = true ∧ self.direction = Direction.left then
    !(cars_in_crossroad.any fun car =>
      decide (car.direction = Direction.bottom ∧ car.destination = Destination.right ∧
        car.y ≥ CENTER_Y))
  else if self.destination = Destination.bottom ∧ self.direction = Direction.left then
    true
  else if self.destination = Destination.bottom ∧ self.direction = Direction.right then
    !(cars_in_crossroad.any fun car =>
      decide (car.direction = Direction.left ∧ destEqDir car.destination Direction.left = true ∧
        car.x ≤ CENTER_X))
  else if self.destination = Destination.left then
    !(cars_in_crossroad.any fun car =>
      decide (car.direction = Direction.right ∧ car.destination = Destination.bottom ∧
        car.x ≥ CENTER_X))
  else if self.destination = Destination.right then
    true
  else
    false

/-! ## Kinematics -/

/-- `Car.get_distance_to_stop_target`. -/
def get_distance_to_stop_target (self : Car) : ℚ :=
  if self.has_stopped_at_crossroad = true then 1000
  else if self.dx ≠ 0 then |stop_positions self.direction - self.x|
  else |stop_positions self.direction - self.y|

/-- `Car.calculate_stopping_distance` (a function of `self.speed` only). -/
def calculate_stopping_distance (speed : ℚ) : ℚ :=
  if 0 < speed then speed ^ 2 / (2 * MAX_DECELERATION) else 0

/-- The speed adjustment performed by the first two branches of
`Car.update_speed` (braking / acceleration), as a function of the current
speed, the max speed and the distance to the stop target. -/
def adjusted_speed (speed max_speed d : ℚ) : ℚ :=
  let required := calculate_stopping_distance speed
  if required ≥ d then
    max 0 (speed - (min (MAX_DECELERATION * 2) (speed ^ 2 / (2 * d))) / FPS)
  else if speed < max_speed ∧ d > required * (3 / 2) then
    min max_speed (speed + ACCELERATION / FPS)
  else
    speed

/-- `Car.update_speed`: adjust the speed, then force a full stop (starting the
stop timer and recording the stop, if the timer is not already running) when
the target is closer than 1 unit. -/
def update_speed (c : Car) (distance_to_target : ℚ) : Car :=
  let c1 : Car := { c with speed := adjusted_speed c.speed c.max_speed distance_to_target }
  if distance_to_target < 1 then
    let c2 : Car :=
      if c1.stop_timer = 0 then
        { c1 with stop_timer := STOP_TIME, has_stopped_at_crossroad := true }
      else c1
    { c2 with speed := 0 }
  else c1

/-- `Car.turn`: one-time re-assignment of direction, heading, angle and the
lateral lane snap, keyed by the destination. -/
def turn (c : Car) : Car :=
  let c := { c with has_turned := true }
  if c.destination = Destination.bottom then
    { c with direction := Direction.bottom, dx := 0, dy := 1, angle := 90,
             x := CENTER_X - LANE_WIDTH / 2 }
  else if c.destination = Destination.left then
    { c with direction := Direction.left, dx := -1, dy := 0, angle := 180,
             y := CENTER_Y - LANE_WIDTH / 2 }
  else
    { c with direction := Direction.right, dx := 1, dy := 0, angle := 0,
             y := CENTER_Y + LANE_WIDTH / 2 }

/-- `Car.check_turn`: position-threshold trigger for `turn`.  The guard
`self.destination == self.direction` is the cross-enum comparison (line 195),
hence `destEqDir`. -/
def check_turn (c : Car) : Car :=
  if c.has_turned = true ∨ destEqDir c.destination c.direction = true then c
  else if c.direction = Direction.right ∧ c.destination = Destination.bottom then
    if c.x ≥ CENTER_X - LANE_WIDTH / 2 then turn c else c
  else if c.direction = Direction.left ∧ c.destination = Destination.bottom then
    if c.x ≤ CENTER_X + LANE_WIDTH / 2 then turn c else c
  else if c.direction = Direction.bottom then
    if c.y ≤ CENTER_Y + LANE_WIDTH / 2 then turn c else c
  else c

/-- `Car.update_position`. -/
def update_position (c : Car) : Car :=
  { c with x := c.x + c.dx * c.speed * PIXELS_PER_METER / FPS,
           y := c.y + c.dy * c.speed * PIXELS_PER_METER / FPS }

/-- The restart kick of `Car.move` (lines 174-175): a stopped car that has
come to rest starts accelerating from rest. -/
def kick_speed (c : Car) : Car :=
  if c.has_stopped_at_crossroad = true ∧ c.speed = 0 then
    { c with speed := min c.max_speed (ACCELERATION / FPS) }
  else c

/-- `Car.move`: the per-tick update of one vehicle against the full vehicle
list.  It returns early (fully unchanged) when the vehicle has stopped at the
crossroad, right-of-way is denied and it has not turned; otherwise it
kick-starts a stopped vehicle, adjusts the speed, counts the stop timer down
(remaining halted), and only with the timer at zero turns and advances. -/
def Car.move (c : Car) (other_cars : List Car) : Car :=
  if c.has_stopped_at_crossroad = true ∧ can_proceed c other_cars = false ∧
      c.has_turned = false then
    c
  else
    let c1 := kick_speed c
    let distance_to_target := get_distance_to_stop_target c1
    let c2 := update_speed c1 distance_to_target
    if 0 < c2.stop_timer then
      { c2 with stop_timer := c2.stop_timer - 1 }
    else
      update_position (check_turn c2)

/-! ## The world: spawning and the tick loop (`Simulation`) -/

/-- `Simulation.can_spawn`: 50 m clearance from the spawn edge, tested only
against cars travelling in the same direction. -/
def can_spawn (direction : Direction) (cars : List Car) : Bool :=
  cars.all fun car =>
    if car.direction = direction then
      if direction = Direction.right then decide (car.x > -CAR_WIDTH + SPAWN_CLEARANCE)
      else if direction = Direction.left then decide (car.x < WIDTH + CAR_WIDTH - SPAWN_CLEARANCE)
      else if direction = Direction.top then decide (car.y > -CAR_HEIGHT + SPAWN_CLEARANCE)
      else decide (car.y < HEIGHT + CAR_HEIGHT - SPAWN_CLEARANCE)
    else true

/-- The random draws consumed by one spawn pass: the Bernoulli coin
(`random.random() < spawn_probability`) and the destination pick, for each of
the two spawnable directions. -/
structure SpawnOracle where
  coinRight : Bool
  pickRight : Bool
  coinLeft : Bool
  pickLeft : Bool
deriving DecidableEq

/-- `Simulation.spawn_cars`: per-direction counts are taken before any append
(the `car_counts` dictionary); directions are processed in source order
`[RIGHT, LEFT]`, each appending at most one car when its count is below
`max_cars_per_direction = 2`, its clearance check passes (against the current,
possibly-grown list) and its coin comes up. -/
def spawn_cars (o : SpawnOracle) (cars : List Car) : List Car :=
  let countRight := (cars.filter fun car => decide (car.direction = Direction.right)).length
  let countLeft := (cars.filter fun car => decide (car.direction = Direction.left)).length
  let cars1 :=
    if countRight < 2 ∧ can_spawn Direction.right cars = true ∧ o.coinRight = true then
      cars ++ [spawnCar Direction.right o.pickRight]
    else cars
  if countLeft < 2 ∧ can_spawn Direction.left cars1 = true ∧ o.coinLeft = true then
    cars1 ++ [spawnCar Direction.left o.pickLeft]
  else cars1

/-- The update pass of `Simulation.run`: `for car in self.cars:
car.move(self.cars)` mutates cars in place, so a car later in the iteration
sees earlier cars already moved, itself and later cars unmoved. -/
def move_pass : List Car → List Car → List Car
  | done, [] => done
  | done, c :: todo => move_pass (done ++ [Car.move c (done ++ c :: todo)]) todo

/-- One full simulation tick: the spawn pass, then the update pass. -/
def tick (o : SpawnOracle) (cars : List Car) : List Car :=
  move_pass [] (spawn_cars o cars)

/-- The simulation run from the empty initial world, driven by a stream of
per-tick spawn draws. -/
def simRun (os : Nat → SpawnOracle) : Nat → List Car
  | 0 => []
  | n + 1 => tick (os n) (simRun os n)

/-- The world state immediately after the spawn pass of tick `n`. -/
def afterSpawn (os : Nat → SpawnOracle) (n : Nat) : List Car :=
  spawn_cars (os n) (simRun os n)

/-- Count of live cars currently travelling in a given direction. -/
def countDir (d : Direction) (cars : List Car) : Nat :=
  (cars.filter fun car => decide (car.direction = d)).length

/-- The single-vehicle run of claim C3: one car spawned from the right with
destination RIGHT, never joined by any other car.  Each tick the car is moved
against the whole car list, which contains just itself. -/
def run3 : Nat → Car
  | 0 => spawnCar Direction.right true
  | n + 1 => Car.move (run3 n) [run3 n]

/-! ## Field-preservation lemmas for the kinematics components -/

lemma update_speed_destination (c : Car) (d : ℚ) :
    (update_speed c d).destination = c.destination := by
  unfold update_speed; dsimp only; split_ifs <;> rfl

lemma update_speed_direction (c : Car) (d : ℚ) :
    (update_speed c d).direction = c.direction := by
  unfold update_speed; dsimp only; split_ifs <;> rfl

lemma update_speed_max_speed (c : Car) (d : ℚ) :
    (update_speed c d).max_speed = c.max_speed := by
  unfold update_speed; dsimp only; split_ifs <;> rfl

lemma update_speed_x (c : Car) (d : ℚ) : (update_speed c d).x = c.x := by
  unfold update_speed; dsimp only; split_ifs <;> rfl

lemma update_speed_y (c : Car) (d : ℚ) : (update_speed c d).y = c.y := by
  unfold update_speed; dsimp only; split_ifs <;> rfl

lemma update_speed_dx (c : Car) (d : ℚ) : (update_speed c d).dx = c.dx := by
  unfold update_speed; dsimp only; split_ifs <;> rfl

lemma update_speed_dy (c : Car) (d : ℚ) : (update_speed c d).dy = c.dy := by
  unfold update_speed; dsimp only; split_ifs <;> rfl

lemma update_speed_angle (c : Car) (d : ℚ) : (update_speed c d).angle = c.angle := by
  unfold update_speed; dsimp only; split_ifs <;> rfl

lemma update_speed_has_turned (c : Car) (d : ℚ) :
    (update_speed c d).has_turned = c.has_turned := by
  unfold update_speed; dsimp only; split_ifs <;> rfl

lemma update_speed_stopped_mono (c : Car) (d : ℚ)
    (h : c.has_stopped_at_crossroad = true) :
    (update_speed c d).has_stopped_at_crossroad = true := by
  unfold update_speed; dsimp only; split_ifs <;> simp [h]

lemma turn_destination (c : Car) : (turn c).destination = c.destination := by
  simp only [turn]; split_ifs <;> rfl

lemma turn_max_speed (c : Car) : (turn c).max_speed = c.max_speed := by
  simp only [turn]; split_ifs <;> rfl

lemma turn_speed (c : Car) : (turn c).speed = c.speed := by
  simp only [turn]; split_ifs <;> rfl

lemma turn_stop_timer (c : Car) : (turn c).stop_timer = c.stop_timer := by
  simp only [turn]; split_ifs <;> rfl

lemma turn_stopped (c : Car) :
    (turn c).has_stopped_at_crossroad = c.has_stopped_at_crossroad := by
  simp only [turn]; split_ifs <;> rfl

lemma turn_has_turned (c : Car) : (turn c).has_turned = true := by
  simp only [turn]; split_ifs <;> rfl

lemma check_turn_of_turned (c : Car) (h : c.has_turned = true) : check_turn c = c := by
  unfold check_turn
  rw [if_pos (Or.inl h)]

lemma check_turn_destination (c : Car) : (check_turn c).destination = c.destination := by
  simp only [check_turn]; split_ifs <;> simp [turn_destination]

lemma check_turn_max_speed (c : Car) : (check_turn c).max_speed = c.max_speed := by
  simp only [check_turn]; split_ifs <;> simp [turn_max_speed]

lemma check_turn_speed (c : Car) : (check_turn c).speed = c.speed := by
  simp only [check_turn]; split_ifs <;> simp [turn_speed]

lemma check_turn_stop_timer (c : Car) : (check_turn c).stop_timer = c.stop_timer := by
  simp only [check_turn]; split_ifs <;> simp [turn_stop_timer]

lemma check_turn_stopped (c : Car) :
    (check_turn c).has_stopped_at_crossroad = c.has_stopped_at_crossroad := by
  simp only [check_turn]; split_ifs <;> simp [turn_stopped]

lemma check_turn_turned_mono (c : Car) (h : c.has_turned = true) :
    (check_turn c).has_turned = true := by
  rw [check_turn_of_turned c h]; exact h

lemma update_position_destination (c : Car) :
    (update_position c).destination = c.destination := rfl

lemma update_position_direction (c : Car) :
    (update_position c).direction = c.direction := rfl

lemma update_position_max_speed (c : Car) :
    (update_position c).max_speed = c.max_speed := rfl

lemma update_position_speed (c : Car) : (update_position c).speed = c.speed := rfl

lemma update_position_stop_timer (c : Car) :
    (update_position c).stop_timer = c.stop_timer := rfl

lemma update_position_stopped (c : Car) :
    (update_position c).has_stopped_at_crossroad = c.has_stopped_at_crossroad := rfl

lemma update_position_has_turned (c : Car) :
    (update_position c).has_turned = c.has_turned := rfl

lemma kick_speed_stop_timer (c : Car) : (kick_speed c).stop_timer = c.stop_timer := by
  unfold kick_speed; split_ifs <;> rfl

lemma kick_speed_x (c : Car) : (kick_speed c).x = c.x := by
  unfold kick_speed; split_ifs <;> rfl

lemma kick_speed_y (c : Car) : (kick_speed c).y = c.y := by
  unfold kick_speed; split_ifs <;> rfl

lemma kick_speed_direction (c : Car) : (kick_speed c).direction = c.direction := by
  unfold kick_speed; split_ifs <;> rfl

lemma kick_speed_destination (c : Car) : (kick_speed c).destination = c.destination := by
  unfold kick_speed; split_ifs <;> rfl

lemma kick_speed_max_speed (c : Car) : (kick_speed c).max_speed = c.max_speed := by
  unfold kick_speed; split_ifs <;> rfl

lemma kick_speed_stopped (c : Car) :
    (kick_speed c).has_stopped_at_crossroad = c.has_stopped_at_crossroad := by
  unfold kick_speed; split_ifs <;> rfl

lemma kick_speed_has_turned (c : Car) : (kick_speed c).has_turned = c.has_turned := by
  unfold kick_speed; split_ifs <;> rfl

lemma kick_speed_dx (c : Car) : (kick_speed c).dx = c.dx := by
  unfold kick_speed; split_ifs <;> rfl

lemma kick_speed_dy (c : Car) : (kick_speed c).dy = c.dy := by
  unfold kick_speed; split_ifs <;> rfl

lemma kick_speed_angle (c : Car) : (kick_speed c).angle = c.angle := by
  unfold kick_speed; split_ifs <;> rfl

/-! ## Basic structural lemmas about `Car.move` -/

/-- A car that has stopped at the crossroad, has not turned, and is denied
right-of-way is returned unchanged by `Car.move` (the early return of the
source, lines 170-171). -/
lemma move_denied (c : Car) (os : List Car) (hs : c.has_stopped_at_crossroad = true)
    (ht : c.has_turned = false) (hp : can_proceed c os = false) :
    Car.move c os = c := by
  unfold Car.move
  rw [if_pos ⟨hs, hp, ht⟩]

/-- `Car.move` never changes the destination. -/
lemma move_destination (c : Car) (os : List Car) :
    (Car.move c os).destination = c.destination := by
  unfold Car.move
  dsimp only
  split_ifs <;>
    simp [update_position_destination, check_turn_destination, update_speed_destination,
      kick_speed_destination]

/-- `Car.move` never changes the max speed. -/
lemma move_max_speed (c : Car) (os : List Car) :
    (Car.move c os).max_speed = c.max_speed := by
  unfold Car.move
  dsimp only
  split_ifs <;>
    simp [update_position_max_speed, check_turn_max_speed, update_speed_max_speed,
      kick_speed_max_speed]

/-- `Car.move` never resets `has_stopped_at_crossroad`. -/
lemma move_stopped_mono (c : Car) (os : List Car)
    (h : c.has_stopped_at_crossroad = true) :
    (Car.move c os).has_stopped_at_crossroad = true := by
  unfold Car.move
  dsimp only
  split_ifs <;>
    simp [update_position_stopped, check_turn_stopped,
      update_speed_stopped_mono _ _ (by rw [kick_speed_stopped]; exact h), h]

lemma update_position_dx (c : Car) : (update_position c).dx = c.dx := rfl

lemma update_position_dy (c : Car) : (update_position c).dy = c.dy := rfl

lemma update_position_angle (c : Car) : (update_position c).angle = c.angle := rfl

lemma update_speed_stop_timer_of_ne (c : Car) (d : ℚ) (h : c.stop_timer ≠ 0) :
    (update_speed c d).stop_timer = c.stop_timer := by
  unfold update_speed; dsimp only; split_ifs <;> simp_all

lemma kick_update_turned (c : Car) (d : ℚ) :
    (update_speed (kick_speed c) d).has_turned = c.has_turned := by
  rw [update_speed_has_turned, kick_speed_has_turned]

/-- `Car.move` never resets `has_turned`. -/
lemma move_turned_mono (c : Car) (os : List Car) (h : c.has_turned = true) :
    (Car.move c os).has_turned = true := by
  unfold Car.move
  dsimp only
  split_ifs with h1 h2
  · exact h
  · rw [kick_update_turned]; exact h
  · rw [update_position_has_turned,
      check_turn_turned_mono _ (by rw [kick_update_turned]; exact h)]

/-- Once turned, `Car.move` never re-assigns direction, heading or angle. -/
lemma move_frozen_of_turned (c : Car) (os : List Car) (h : c.has_turned = true) :
    (Car.move c os).direction = c.direction ∧ (Car.move c os).dx = c.dx ∧
      (Car.move c os).dy = c.dy ∧ (Car.move c os).angle = c.angle := by
  unfold Car.move
  dsimp only
  split_ifs with h1 h2
  · exact ⟨rfl, rfl, rfl, rfl⟩
  · refine ⟨?_, ?_, ?_, ?_⟩ <;>
      simp [update_speed_direction, update_speed_dx, update_speed_dy, update_speed_angle,
        kick_speed_direction, kick_speed_dx, kick_speed_dy, kick_speed_angle]
  · rw [check_turn_of_turned _ (by rw [kick_update_turned]; exact h)]
    refine ⟨?_, ?_, ?_, ?_⟩ <;>
      simp [update_position_direction, update_position_dx, update_position_dy,
        update_position_angle, update_speed_direction, update_speed_dx, update_speed_dy,
        update_speed_angle, kick_speed_direction, kick_speed_dx, kick_speed_dy,
        kick_speed_angle]

/-- With a positive stop timer and the early-return guard not taken, a tick
decrements the timer by exactly one and does not move the car. -/
lemma move_timer_pos (c : Car) (os : List Car) (h : 0 < c.stop_timer)
    (hg : c.has_stopped_at_crossroad = false ∨ can_proceed c os = true ∨ c.has_turned = true) :
    (Car.move c os).stop_timer = c.stop_timer - 1 ∧ (Car.move c os).x = c.x ∧
      (Car.move c os).y = c.y := by
  have hguard : ¬(c.has_stopped_at_crossroad = true ∧ can_proceed c os = false ∧
      c.has_turned = false) := by
    rintro ⟨h1, h2, h3⟩
    rcases hg with hg | hg | hg <;> simp_all
  have h1 : (update_speed (kick_speed c)
      (get_distance_to_stop_target (kick_speed c))).stop_timer = c.stop_timer := by
    rw [update_speed_stop_timer_of_ne _ _ (by rw [kick_speed_stop_timer]; omega),
      kick_speed_stop_timer]
  unfold Car.move
  dsimp only
  rw [if_neg hguard, if_pos (by rw [h1]; exact h)]
  exact ⟨by rw [h1], by rw [update_speed_x, kick_speed_x],
    by rw [update_speed_y, kick_speed_y]⟩

/-! ## Repeated ticks of a single car against a stream of neighbour lists -/

/-- `n` consecutive `Car.move` ticks of one car, the neighbour list of tick `k`
given by `oss k`. -/
def runTicks (oss : Nat → List Car) (c : Car) : Nat → Car
  | 0 => c
  | n + 1 => Car.move (runTicks oss c n) (oss n)

/-! ## Spec-side predicates for the right-of-way table (claims C1 and C2)

These two definitions follow the words of the specification table, to be
compared with the behaviour of the source's `can_proceed`. -/

/-- Spec reading of the right→bottom rule: blocked iff some vehicle in the
junction-proximity filter has approach LEFT, destination LEFT and x-position
at most the junction center x. -/
def specRightBottomBlocked (other_cars : List Car) : Bool :=
  (other_cars.filter in_crossroad).any fun car =>
    decide (car.direction = Direction.left ∧ car.destination = Destination.left ∧
      car.x ≤ CENTER_X)

/-- Spec reading of the left→left rule: blocked iff some vehicle in the
junction-proximity filter has approach BOTTOM, destination RIGHT and is past
the junction center line on its axis of travel (the source's reading of
"past the center": `car.y >= CENTER_Y`). -/
def specLeftStraightBlocked (other_cars : List Car) : Bool :=
  (other_cars.filter in_crossroad).any fun car =>
    decide (car.direction = Direction.bottom ∧ car.destination = Destination.right ∧
      car.y ≥ CENTER_Y)

/-! ## Concrete vehicles for the claim instances -/

/-- C1 ego: approaching from the right, turning to the bottom, waiting at its
stop line. -/
def carC1ego : Car :=
  { direction := Direction.right, destination := Destination.bottom, max_speed := 20,
    speed := 0, stop_timer := 0, has_stopped_at_crossroad := true, has_turned := false,
    x := 300, y := 425, dx := 1, dy := 0, angle := 0 }

/-- C1 conflicting vehicle: approach LEFT, destination LEFT, inside the
junction range with `x ≤ CENTER_X`. -/
def carC1blocker : Car :=
  { direction := Direction.left, destination := Destination.left, max_speed := 20,
    speed := 5, stop_timer := 0, has_stopped_at_crossroad := true, has_turned := false,
    x := 400, y := 375, dx := -1, dy := 0, angle := 0 }

def carsC1 : List Car := [carC1ego, carC1blocker]

/-- C2 ego: going straight from the left. -/
def carC2ego : Car :=
  { direction := Direction.left, destination := Destination.left, max_speed := 20,
    speed := 0, stop_timer := 0, has_stopped_at_crossroad := true, has_turned := false,
    x := 471, y := 375, dx := -1, dy := 0, angle := 0 }

/-- C2 conflicting vehicle, first reading: approach BOTTOM, destination RIGHT,
inside the junction range, `y ≥ CENTER_Y`. -/
def carC2blockerA : Car :=
  { direction := Direction.bottom, destination := Destination.right, max_speed := 20,
    speed := 5, stop_timer := 0, has_stopped_at_crossroad := true, has_turned := false,
    x := 375, y := 410, dx := 0, dy := -1, angle := 90 }

/-- C2 conflicting vehicle, second reading: same stream but already across the
center line in its upward direction of travel (`y < CENTER_Y`). -/
def carC2blockerB : Car :=
  { direction := Direction.bottom, destination := Destination.right, max_speed := 20,
    speed := 5, stop_timer := 0, has_stopped_at_crossroad := true, has_turned := false,
    x := 375, y := 390, dx := 0, dy := -1, angle := 90 }

def carsC2 : List Car := [carC2ego, carC2blockerA, carC2blockerB]

/-- C4 ego: stopped at the left-approach stop line, not yet turned. -/
def carC4ego : Car :=
  { direction := Direction.left, destination := Destination.left, max_speed := 20,
    speed := 0, stop_timer := 0, has_stopped_at_crossroad := true, has_turned := false,
    x := 471, y := 375, dx := -1, dy := 0, angle := 0 }

/-- C4 conflicting vehicle: a right→bottom car at the junction center, which
denies the ego's right-of-way. -/
def carC4blocker : Car :=
  { direction := Direction.right, destination := Destination.bottom, max_speed := 20,
    speed := 5, stop_timer := 0, has_stopped_at_crossroad := true, has_turned := false,
    x := 400, y := 425, dx := 1, dy := 0, angle := 0 }

def carsC4 : List Car := [carC4ego, carC4blocker]

/-- C6 ego: mid-dwell (timer at 5), stopped, not turned, denied. -/
def carC6ego : Car :=
  { direction := Direction.left, destination := Destination.left, max_speed := 20,
    speed := 0, stop_timer := 5, has_stopped_at_crossroad := true, has_turned := false,
    x := 471, y := 375, dx := -1, dy := 0, angle := 0 }

def carsC6 : List Car := [carC6ego, carC4blocker]

/-- C6 witness ego: mid-dwell, right-of-way granted (right→right is free). -/
def carC6granted : Car :=
  { direction := Direction.right, destination := Destination.right, max_speed := 20,
    speed := 0, stop_timer := 3, has_stopped_at_crossroad := true, has_turned := false,
    x := 329, y := 425, dx := 1, dy := 0, angle := 0 }

/-- C8 witness: a car that has already turned into the downward road. -/
def carC8turned : Car :=
  { direction := Direction.bottom, destination := Destination.bottom, max_speed := 20,
    speed := 10, stop_timer := 0, has_stopped_at_crossroad := true, has_turned := true,
    x := 375, y := 500, dx := 0, dy := 1, angle := 90 }

/-! ## Claim C1 -/

/-- Claim C1 (code bug): a vehicle with approach RIGHT and destination BOTTOM
is *never* blocked by `can_proceed` — the conflict check of the source
compares `car.destination` against `Direction.LEFT`, a member of the wrong
enum class, so the condition is unsatisfiable — and in particular it proceeds
against a nearby approach-LEFT destination-LEFT vehicle with
`x ≤ CENTER_X`, where the claim requires `can_proceed` to return false. -/
theorem rightBottom_conflict_check_never_fires :
    (∀ (c : Car) (os : List Car), c.direction = Direction.right →
      c.destination = Destination.bottom → can_proceed c os = true) ∧
    (specRightBottomBlocked carsC1 = true ∧ can_proceed carC1ego carsC1 = true) := by
  constructor
  · intro c os hdir hdest
    simp [can_proceed, destEqDir, hdir, hdest]
  · constructor
    · norm_num [specRightBottomBlocked, in_crossroad, carsC1, carC1ego, carC1blocker,
        CENTER_X, CENTER_Y, CROSSROAD_RANGE, PIXELS_PER_METER, WIDTH, ROAD_LENGTH,
        List.filter, List.any]
    · norm_num [can_proceed, destEqDir, in_crossroad, carsC1, carC1ego, carC1blocker,
        CENTER_X, CENTER_Y, CROSSROAD_RANGE, PIXELS_PER_METER, WIDTH, ROAD_LENGTH,
        List.filter, List.any]

/-- Witness for the universally quantified part of the C1 theorem. -/
theorem rightBottom_conflict_check_never_fires_witness :
    can_proceed carC1ego carsC1 = true :=
  rightBottom_conflict_check_never_fires.1 carC1ego carsC1 rfl rfl

/-! ## Claim C2 -/

/-- Claim C2 (code bug): the left→left straight-ahead branch of the source is
dead (its guard `self.destination == self.direction` is a cross-enum
comparison), so a left→left vehicle is actually governed by the bottom→left
rule — blocked iff some nearby vehicle has approach RIGHT, destination BOTTOM
and `x ≥ CENTER_X` — and it proceeds against nearby bottom→right vehicles
both at `y ≥ CENTER_Y` and across the center line, where the claim requires
`can_proceed` to return false. -/
theorem leftStraight_branch_dead :
    (∀ (c : Car) (os : List Car), c.direction = Direction.left →
      c.destination = Destination.left →
      (can_proceed c os = false ↔
        ((os.filter in_crossroad).any fun car =>
          decide (car.direction = Direction.right ∧ car.destination = Destination.bottom ∧
            car.x ≥ CENTER_X)) = true)) ∧
    (specLeftStraightBlocked carsC2 = true ∧ can_proceed carC2ego carsC2 = true) := by
  constructor
  · intro c os hdir hdest
    simp [can_proceed, destEqDir, hdir, hdest]
  · constructor
    · norm_num [specLeftStraightBlocked, in_crossroad, carsC2, carC2ego, carC2blockerA,
        carC2blockerB, CENTER_X, CENTER_Y, CROSSROAD_RANGE, PIXELS_PER_METER, WIDTH,
        ROAD_LENGTH, List.filter, List.any]
    · norm_num [can_proceed, destEqDir, in_crossroad, carsC2, carC2ego, carC2blockerA,
        carC2blockerB, CENTER_X, CENTER_Y, CROSSROAD_RANGE, PIXELS_PER_METER, WIDTH,
        ROAD_LENGTH, List.filter, List.any]
      decide

/-- Witness for the universally quantified part of the C2 theorem. -/
theorem leftStraight_branch_dead_witness :
    can_proceed carC2ego carsC2 = true := by
  have h := leftStraight_branch_dead.1 carC2ego carsC2 rfl rfl
  have h2 : ¬(can_proceed carC2ego carsC2 = false) := by
    rw [h]
    norm_num [in_crossroad, carsC2, carC2ego, carC2blockerA, carC2blockerB,
      CENTER_X, CENTER_Y, CROSSROAD_RANGE, PIXELS_PER_METER, WIDTH, ROAD_LENGTH,
      List.filter, List.any]
    decide
  simpa using h2

/-! ## Claim C4 -/

/-- Claim C4: a vehicle that has stopped at the junction and not yet turned
does not move on any tick on which its right-of-way check is denied, and
stays exactly in place over any number of consecutive denied ticks. -/
theorem stopped_denied_never_advances (c : Car)
    (hs : c.has_stopped_at_crossroad = true) (ht : c.has_turned = false) :
    (∀ os : List Car, can_proceed c os = false →
      (Car.move c os).x = c.x ∧ (Car.move c os).y = c.y) ∧
    (∀ oss : Nat → List Car, (∀ k, can_proceed c (oss k) = false) →
      ∀ n, runTicks oss c n = c) := by
  refine ⟨fun os hp => by rw [move_denied c os hs ht hp]; exact ⟨rfl, rfl⟩,
    fun oss hp n => ?_⟩
  induction n with
  | zero => rfl
  | succ n ih => rw [runTicks, ih]; exact move_denied c (oss n) hs ht (hp n)

/-- Witness for C4: the concrete stopped left→left vehicle facing a
right→bottom vehicle at the junction center is denied and does not move,
over a single tick and over 100 consecutive ticks. -/
theorem stopped_denied_never_advances_witness :
    can_proceed carC4ego carsC4 = false ∧ (Car.move carC4ego carsC4).x = carC4ego.x ∧
      runTicks (fun _ => carsC4) carC4ego 100 = carC4ego := by
  have hp : can_proceed carC4ego carsC4 = false := by
    norm_num [can_proceed, destEqDir, in_crossroad, carsC4, carC4ego, carC4blocker,
      CENTER_X, CENTER_Y, CROSSROAD_RANGE, PIXELS_PER_METER, WIDTH, ROAD_LENGTH,
      List.filter, List.any]
    decide
  exact ⟨hp, ((stopped_denied_never_advances carC4ego rfl rfl).1 carsC4 hp).1,
    (stopped_denied_never_advances carC4ego rfl rfl).2 (fun _ => carsC4) (fun _ => hp) 100⟩

/-! ## Claim C6 -/

/-- Claim C6 counterexample: a vehicle with a positive stop timer whose
right-of-way is denied on a tick does *not* decrement the timer on that tick
(the early return skips the decrement), contradicting the claim that every
tick with a positive timer decrements it by exactly one. -/
theorem denied_tick_keeps_timer :
    0 < carC6ego.stop_timer ∧ can_proceed carC6ego carsC6 = false ∧
      (Car.move carC6ego carsC6).stop_timer ≠ carC6ego.stop_timer - 1 := by
  have hp : can_proceed carC6ego carsC6 = false := by
    norm_num [can_proceed, destEqDir, in_crossroad, carsC6, carC6ego, carC4blocker,
      CENTER_X, CENTER_Y, CROSSROAD_RANGE, PIXELS_PER_METER, WIDTH, ROAD_LENGTH,
      List.filter, List.any]
    decide
  refine ⟨by decide, hp, ?_⟩
  rw [move_denied carC6ego carsC6 rfl rfl hp]
  decide

/-- Claim C6 as amended: on a tick where the early-return guard is not taken
(right-of-way granted, or the vehicle already turned, or it never stopped), a
positive stop timer is decremented by exactly one and the position is
unchanged; on a denied tick (stopped, not turned, denied) both the timer and
the position are unchanged. -/
theorem stop_timer_decrement_amended (c : Car) (os : List Car) (h : 0 < c.stop_timer) :
    ((c.has_stopped_at_crossroad = false ∨ can_proceed c os = true ∨ c.has_turned = true) →
      (Car.move c os).stop_timer = c.stop_timer - 1 ∧
        (Car.move c os).x = c.x ∧ (Car.move c os).y = c.y) ∧
    (c.has_stopped_at_crossroad = true → c.has_turned = false → can_proceed c os = false →
      (Car.move c os).stop_timer = c.stop_timer ∧
        (Car.move c os).x = c.x ∧ (Car.move c os).y = c.y) :=
  ⟨fun hg => move_timer_pos c os h hg,
   fun hs ht hp => by rw [move_denied c os hs ht hp]; exact ⟨rfl, rfl, rfl⟩⟩

/-- Witness for the amended C6: a stopped right→right vehicle mid-dwell is
granted right-of-way and its timer goes from 3 to 2 with position frozen. -/
theorem stop_timer_decrement_amended_witness :
    0 < carC6granted.stop_timer ∧ can_proceed carC6granted [] = true ∧
      (Car.move carC6granted []).stop_timer = carC6granted.stop_timer - 1 ∧
      (Car.move carC6granted []).x = carC6granted.x := by
  have hp : can_proceed carC6granted [] = true := by
    norm_num [can_proceed, destEqDir, carC6granted, List.filter, List.any]
  refine ⟨by decide, hp, ?_, ?_⟩
  · exact ((stop_timer_decrement_amended carC6granted [] (by decide)).1
      (Or.inr (Or.inl hp))).1
  · exact ((stop_timer_decrement_amended carC6granted [] (by decide)).1
      (Or.inr (Or.inl hp))).2.1

/-! ## Claim C8 -/

/-- Claim C8: `has_turned` is monotone (it transitions false→true at most
once), a tick of a turned vehicle never re-assigns its direction, heading
vector or angle, and the one-time `turn` sets `has_turned` and re-assigns
direction, heading vector, angle and the lateral lane snap according to the
destination table. -/
theorem has_turned_single_transition :
    (∀ (c : Car) (os : List Car), c.has_turned = true →
      (Car.move c os).has_turned = true ∧ (Car.move c os).direction = c.direction ∧
      (Car.move c os).dx = c.dx ∧ (Car.move c os).dy = c.dy ∧
      (Car.move c os).angle = c.angle) ∧
    (∀ c : Car, (turn c).has_turned = true ∧
      (c.destination = Destination.bottom → (turn c).direction = Direction.bottom ∧
        (turn c).dx = 0 ∧ (turn c).dy = 1 ∧ (turn c).angle = 90 ∧
        (turn c).x = CENTER_X - LANE_WIDTH / 2) ∧
      (c.destination = Destination.left → (turn c).direction = Direction.left ∧
        (turn c).dx = -1 ∧ (turn c).dy = 0 ∧ (turn c).angle = 180 ∧
        (turn c).y = CENTER_Y - LANE_WIDTH / 2) ∧
      (c.destination = Destination.right → (turn c).direction = Direction.right ∧
        (turn c).dx = 1 ∧ (turn c).dy = 0 ∧ (turn c).angle = 0 ∧
        (turn c).y = CENTER_Y + LANE_WIDTH / 2)) := by
  constructor
  · intro c os h
    obtain ⟨h1, h2, h3, h4⟩ := move_frozen_of_turned c os h
    exact ⟨move_turned_mono c os h, h1, h2, h3, h4⟩
  · intro c
    refine ⟨turn_has_turned c, ?_, ?_, ?_⟩ <;> intro hd <;> simp [turn, hd]

/-- Witness for C8: a concrete already-turned vehicle keeps its heading. -/
theorem has_turned_single_transition_witness :
    (Car.move carC8turned []).has_turned = true ∧
      (Car.move carC8turned []).direction = carC8turned.direction :=
  ⟨(has_turned_single_transition.1 carC8turned [] rfl).1,
   (has_turned_single_transition.1 carC8turned [] rfl).2.1⟩

/-! ## Claim C9 -/

/-- Claim C9: a freshly spawned vehicle starts at full speed
(`speed = max_speed`), has not stopped, has not turned, and has a zero stop
timer. -/
theorem spawned_car_initial_state (direction : Direction) (pick : Bool) :
    (spawnCar direction pick).speed = (spawnCar direction pick).max_speed ∧
    (spawnCar direction pick).has_stopped_at_crossroad = false ∧
    (spawnCar direction pick).has_turned = false ∧
    (spawnCar direction pick).stop_timer = 0 :=
  ⟨rfl, rfl, rfl, rfl⟩

/-! ## Arithmetic of the speed law

`adjusted_speed` is analysed through the invariant `speed^2 ≤ 5*d + 310`
(`d` the distance to the stop target), which certifies that the braking law
is strong enough that an approaching car can neither cross its stop line in
one tick nor land exactly on it. -/

lemma calculate_stopping_distance_pos (s : ℚ) (hs : 0 < s) :
    calculate_stopping_distance s = s ^ 2 / 4 := by
  rw [calculate_stopping_distance, if_pos hs]
  norm_num [MAX_DECELERATION]

lemma calculate_stopping_distance_zero : calculate_stopping_distance 0 = 0 := by
  rw [calculate_stopping_distance]
  norm_num

lemma adjusted_speed_eq (s M d : ℚ) :
    adjusted_speed s M d =
      if calculate_stopping_distance s ≥ d then
        max 0 (s - min 4 (s ^ 2 / (2 * d)) / 30)
      else if s < M ∧ d > calculate_stopping_distance s * (3 / 2) then
        min M (s + 1 / 15)
      else s := by
  rw [adjusted_speed]
  norm_num [MAX_DECELERATION, ACCELERATION, FPS]

/-- The speed and max-speed bounds are preserved by the speed adjustment, for
any nonnegative distance. -/
lemma adjusted_speed_bounds (s M d : ℚ) (h0 : 0 ≤ s) (hM : s ≤ M) (hd : 0 ≤ d) :
    0 ≤ adjusted_speed s M d ∧ adjusted_speed s M d ≤ M := by
  have hM0 : (0:ℚ) ≤ M := le_trans h0 hM
  rw [adjusted_speed_eq]
  split_ifs with hb hacc
  · constructor
    · exact le_max_left 0 _
    · have hmin0 : (0:ℚ) ≤ min 4 (s ^ 2 / (2 * d)) := by
        by_cases h2d : (0:ℚ) < 2 * d
        · exact le_min (by norm_num) (div_nonneg (sq_nonneg s) (le_of_lt h2d))
        · have : 2 * d = 0 := by linarith
          rw [this]
          simp
      refine max_le hM0 ?_
      have : min 4 (s ^ 2 / (2 * d)) / 30 ≥ 0 := by positivity
      linarith
  · exact ⟨le_min hM0 (by linarith), min_le_left _ _⟩
  · exact ⟨h0, hM⟩

set_option maxHeartbeats 1600000 in
/-- Core step lemma for a car approaching its stop line: under the invariant
`s^2 ≤ 5*d + 310` with `1 ≤ d` and `0 ≤ s ≤ 20`, the adjusted speed stays in
`[0, 20]`, the per-tick advance `(4/75) * s'` stays strictly short of the
distance, the invariant is re-established at the advanced position, and a
speed at least `28/15` never drops below `28/15`. -/
lemma adjusted_speed_step (s d : ℚ) (hd : 1 ≤ d) (h0 : 0 ≤ s) (h20 : s ≤ 20)
    (hI : s ^ 2 ≤ 5 * d + 310) :
    0 ≤ adjusted_speed s 20 d ∧ adjusted_speed s 20 d ≤ 20 ∧
      (4 / 75) * adjusted_speed s 20 d < d ∧
      (adjusted_speed s 20 d) ^ 2 ≤ 5 * (d - (4 / 75) * adjusted_speed s 20 d) + 310 ∧
      (28 / 15 ≤ s → 28 / 15 ≤ adjusted_speed s 20 d) := by
  have hd0 : (0:ℚ) < d := by linarith
  have h2d : (0:ℚ) < 2 * d := by linarith
  rw [adjusted_speed_eq]
  rcases eq_or_lt_of_le h0 with hs0 | hs0
  · -- the car is at rest: it accelerates to 1/15
    rw [← hs0, calculate_stopping_distance_zero]
    rw [if_neg (by linarith), if_pos ⟨by norm_num, by linarith⟩]
    have hmin : min (20:ℚ) (0 + 1 / 15) = 1 / 15 := by
      rw [min_eq_right] <;> norm_num
    rw [hmin]
    refine ⟨by norm_num, by norm_num, by linarith, by nlinarith, ?_⟩
    intro habs
    exfalso
    norm_num at habs
  · -- the car is moving
    rw [calculate_stopping_distance_pos s hs0]
    split_ifs with hb hacc
    · -- braking branch: s^2/4 ≥ d
      have hs2 : 4 * d ≤ s ^ 2 := by linarith
      have hs_ge2 : 2 ≤ s := by nlinarith [sq_nonneg (s - 2), sq_nonneg (s + 2)]
      set e := min (4:ℚ) (s ^ 2 / (2 * d)) with he
      have he4 : e ≤ 4 := min_le_left _ _
      have he0 : 0 ≤ e := le_min (by norm_num) (div_nonneg (sq_nonneg s) (le_of_lt h2d))
      have hs' : 0 ≤ s - e / 30 := by linarith
      rw [max_eq_right hs']
      have hles : s - e / 30 ≤ s := by linarith
      have hsq : (s - e / 30) ^ 2 ≤ s ^ 2 := by nlinarith
      have hs400 : s ^ 2 ≤ 400 := by nlinarith [sq_nonneg (20 - s)]
      have hd100 : d ≤ 100 := by linarith
      have hstep : (4 / 75) * (s - e / 30) < d := by
        by_contra hcon
        push_neg at hcon
        have h1615 : d ≤ 16 / 15 := by linarith
        have h754 : 75 / 4 ≤ s - e / 30 := by linarith
        nlinarith [sq_nonneg (s - e / 30 - 75 / 4)]
      refine ⟨hs', by linarith, hstep, ?_, fun _ => by linarith⟩
      rcases le_or_lt 4 (s ^ 2 / (2 * d)) with hcap | hcap
      · -- capped deceleration: e = 4
        have he4' : e = 4 := min_eq_left hcap
        rw [he4']
        nlinarith
      · -- physics-derived deceleration: e = s^2/(2*d), hence s^2 < 8*d
        have h8d : s ^ 2 < 8 * d := by
          have h := (div_lt_iff₀ h2d).mp hcap
          linarith
        have hsq8 : (s - e / 30) ^ 2 ≤ 8 * d := le_trans hsq (le_of_lt h8d)
        nlinarith
    · -- acceleration branch: enough room and below max speed
      have hblt : s ^ 2 / 4 < d := lt_of_not_ge hb
      have hs4d : s ^ 2 < 4 * d := by linarith
      have hs83 : s ^ 2 < (8 / 3) * d := by linarith [hacc.2]
      rcases le_or_lt (s + 1 / 15) 20 with hmin | hmin
      · rw [min_eq_right hmin]
        refine ⟨by linarith, hmin, ?_, by nlinarith, fun h => by linarith⟩
        by_contra hcon
        push_neg at hcon
        have h1615 : d ≤ 16 / 15 := by linarith
        have hsge : 1121 / 60 ≤ s := by linarith
        have hssq : ((1121 : ℚ) / 60) ^ 2 ≤ s ^ 2 := by
          apply pow_le_pow_left₀ (by norm_num) hsge
        have hlt : s ^ 2 < 128 / 45 := by linarith
        norm_num at hssq
        linarith
      · rw [min_eq_left (le_of_lt hmin)]
        have hs299 : 299 / 15 ≤ s := by linarith
        have hssq : ((299 : ℚ) / 15) ^ 2 ≤ s ^ 2 := by
          apply pow_le_pow_left₀ (by norm_num) hs299
        have hd20 : 20 ≤ d := by
          norm_num at hssq
          linarith
        refine ⟨by norm_num, le_refl _, by linarith, by linarith, fun _ => by norm_num⟩
    · -- no-change branch
      have hblt : s ^ 2 / 4 < d := lt_of_not_ge hb
      have hs4d : s ^ 2 < 4 * d := by linarith
      push_neg at hacc
      rcases lt_or_le s 20 with hs20 | hs20
      · have hdle : d ≤ s ^ 2 / 4 * (3 / 2) := hacc hs20
        refine ⟨h0, h20, ?_, by linarith, fun h => h⟩
        by_contra hcon
        push_neg at hcon
        have h1615 : d ≤ 16 / 15 := by linarith
        have hsge : 75 / 4 ≤ s := by linarith
        have hssq : ((75 : ℚ) / 4) ^ 2 ≤ s ^ 2 := by
          apply pow_le_pow_left₀ (by norm_num) hsge
        norm_num at hssq
        linarith
      · have hs20' : s = 20 := le_antisymm h20 hs20
        rw [hs20'] at hs4d ⊢
        norm_num at hs4d
        refine ⟨by norm_num, le_refl _, by linarith, by norm_num; linarith, fun _ => by norm_num⟩

/-! ## The pre-stop phase of a car's life

Until its first stop, a car's own motion is independent of the other cars:
the early-return guard and the restart kick both require
`has_stopped_at_crossroad`.  The following lemmas describe one tick of a
not-yet-stopped car on the right or left approach. -/

lemma stop_positions_right : stop_positions Direction.right = 330 := by
  norm_num [stop_positions, CENTER_X, ROAD_WIDTH]

lemma stop_positions_left : stop_positions Direction.left = 470 := by
  norm_num [stop_positions, CENTER_X, ROAD_WIDTH]

lemma kick_speed_not_stopped (c : Car) (h : c.has_stopped_at_crossroad = false) :
    kick_speed c = c := by
  unfold kick_speed
  rw [if_neg]
  rintro ⟨h1, _⟩
  rw [h] at h1
  exact Bool.false_ne_true h1

lemma dist_prestop_right (c : Car) (hst : c.has_stopped_at_crossroad = false)
    (hdir : c.direction = Direction.right) (hdx : c.dx = 1) (hx : c.x < 330) :
    get_distance_to_stop_target c = 330 - c.x := by
  have hdx0 : c.dx ≠ 0 := by rw [hdx]; norm_num
  unfold get_distance_to_stop_target
  rw [if_neg (by simp [hst]), if_pos hdx0, hdir, stop_positions_right,
    abs_of_pos (by linarith)]

lemma dist_prestop_left (c : Car) (hst : c.has_stopped_at_crossroad = false)
    (hdir : c.direction = Direction.left) (hdx : c.dx = -1) (hx : 470 < c.x) :
    get_distance_to_stop_target c = c.x - 470 := by
  have hdx0 : c.dx ≠ 0 := by rw [hdx]; norm_num
  unfold get_distance_to_stop_target
  rw [if_neg (by simp [hst]), if_pos hdx0, hdir, stop_positions_left]
  rw [abs_of_neg (by linarith)]
  ring

lemma update_speed_far (c : Car) (d : ℚ) (hd : ¬(d < 1)) :
    update_speed c d = { c with speed := adjusted_speed c.speed c.max_speed d } := by
  unfold update_speed
  rw [if_neg hd]

lemma update_speed_near (c : Car) (d : ℚ) (hd : d < 1) (htm : c.stop_timer = 0) :
    update_speed c d =
      { c with speed := 0, stop_timer := STOP_TIME, has_stopped_at_crossroad := true } := by
  unfold update_speed
  dsimp only
  rw [if_pos hd, if_pos htm]

lemma check_turn_prestop_right (c : Car) (hdir : c.direction = Direction.right)
    (hx : c.x < 375) : check_turn c = c := by
  by_cases h1 : c.has_turned = true ∨ destEqDir c.destination c.direction = true
  · rw [check_turn, if_pos h1]
  · rw [check_turn, if_neg h1]
    by_cases h2 : c.direction = Direction.right ∧ c.destination = Destination.bottom
    · rw [if_pos h2, if_neg]
      norm_num [CENTER_X, LANE_WIDTH]
      linarith
    · rw [if_neg h2,
        if_neg (by rintro ⟨hl, _⟩; rw [hdir] at hl; exact absurd hl (by decide)),
        if_neg (by rw [hdir]; decide)]

lemma check_turn_prestop_left (c : Car) (hdir : c.direction = Direction.left)
    (hx : 425 < c.x) : check_turn c = c := by
  by_cases h1 : c.has_turned = true ∨ destEqDir c.destination c.direction = true
  · rw [check_turn, if_pos h1]
  · rw [check_turn, if_neg h1]
    rw [if_neg (by rintro ⟨hl, _⟩; rw [hdir] at hl; exact absurd hl (by decide))]
    by_cases h2 : c.direction = Direction.left ∧ c.destination = Destination.bottom
    · rw [if_pos h2, if_neg]
      norm_num [CENTER_X, LANE_WIDTH]
      linarith
    · rw [if_neg h2, if_neg (by rw [hdir]; decide)]

/-- One tick of a not-yet-stopped car on the right approach: within one unit
of the stop line it performs its one-time stop; otherwise it advances by
`(4/75) * speed'`, stays strictly short of the line, and re-establishes the
braking invariant. -/
lemma move_prestop_right (c : Car) (os : List Car)
    (hst : c.has_stopped_at_crossroad = false) (htm : c.stop_timer = 0)
    (hdir : c.direction = Direction.right) (hdx : c.dx = 1) (hdy : c.dy = 0)
    (hx : c.x < 330) (h0 : 0 ≤ c.speed) (h20 : c.speed ≤ 20) (hmax : c.max_speed = 20)
    (hI : c.speed ^ 2 ≤ 5 * (330 - c.x) + 310) :
    (330 - c.x < 1 →
      (Car.move c os).has_stopped_at_crossroad = true ∧ (Car.move c os).speed = 0 ∧
      (Car.move c os).stop_timer = 59 ∧ (Car.move c os).x = c.x ∧
      (Car.move c os).direction = c.direction ∧
      (Car.move c os).destination = c.destination ∧
      (Car.move c os).max_speed = c.max_speed) ∧
    (1 ≤ 330 - c.x →
      (Car.move c os).has_stopped_at_crossroad = false ∧
      (Car.move c os).stop_timer = 0 ∧
      (Car.move c os).direction = Direction.right ∧
      (Car.move c os).destination = c.destination ∧
      (Car.move c os).max_speed = 20 ∧
      (Car.move c os).dx = 1 ∧ (Car.move c os).dy = 0 ∧ (Car.move c os).y = c.y ∧
      (Car.move c os).has_turned = c.has_turned ∧
      0 ≤ (Car.move c os).speed ∧ (Car.move c os).speed ≤ 20 ∧
      (Car.move c os).x = c.x + (4 / 75) * (Car.move c os).speed ∧
      (Car.move c os).x < 330 ∧
      (Car.move c os).speed ^ 2 ≤ 5 * (330 - (Car.move c os).x) + 310 ∧
      (28 / 15 ≤ c.speed → 28 / 15 ≤ (Car.move c os).speed)) := by
  have hguard : ¬(c.has_stopped_at_crossroad = true ∧ can_proceed c os = false ∧
      c.has_turned = false) := by
    rintro ⟨h1, _, _⟩
    rw [hst] at h1
    exact Bool.false_ne_true h1
  have hkick : kick_speed c = c := kick_speed_not_stopped c hst
  have hdist : get_distance_to_stop_target c = 330 - c.x :=
    dist_prestop_right c hst hdir hdx hx
  constructor
  · -- stop tick
    intro hnear
    have hmove : Car.move c os =
        { c with speed := 0, stop_timer := 59, has_stopped_at_crossroad := true } := by
      unfold Car.move
      dsimp only
      rw [if_neg hguard, hkick, hdist, update_speed_near c _ hnear htm]
      rw [if_pos (by norm_num [STOP_TIME])]
      norm_num [STOP_TIME]
    rw [hmove]
    exact ⟨rfl, rfl, rfl, rfl, rfl, rfl, rfl⟩
  · -- advancing tick
    intro hfar
    obtain ⟨ha0, ha20, hstep, haI, halow⟩ :=
      adjusted_speed_step c.speed (330 - c.x) hfar h0 h20 hI
    have hmove : Car.move c os = update_position
        { c with speed := adjusted_speed c.speed 20 (330 - c.x) } := by
      unfold Car.move
      dsimp only
      rw [if_neg hguard, hkick, hdist, update_speed_far c _ (by linarith), hmax]
      rw [if_neg (by rw [htm]; norm_num)]
      rw [check_turn_prestop_right _ (by exact hdir) (by dsimp only; linarith)]
    have hxeq : (Car.move c os).x =
        c.x + (4 / 75) * adjusted_speed c.speed 20 (330 - c.x) := by
      rw [hmove]
      unfold update_position
      dsimp only
      rw [hdx]
      norm_num [PIXELS_PER_METER, WIDTH, ROAD_LENGTH, FPS]
      ring
    have hspeed : (Car.move c os).speed = adjusted_speed c.speed 20 (330 - c.x) := by
      rw [hmove]; rfl
    refine ⟨?_, ?_, ?_, ?_, ?_, ?_, ?_, ?_, ?_, ?_, ?_, ?_, ?_, ?_, ?_⟩
    · rw [hmove]; exact hst
    · rw [hmove]; exact htm
    · rw [hmove]; exact hdir
    · rw [hmove]; rfl
    · rw [hmove]; exact hmax
    · rw [hmove]; exact hdx
    · rw [hmove]; exact hdy
    · rw [hmove]; unfold update_position; dsimp only; rw [hdy]; ring
    · rw [hmove]; rfl
    · rw [hspeed]; exact ha0
    · rw [hspeed]; exact ha20
    · rw [hxeq, hspeed]
    · rw [hxeq]; linarith
    · rw [hxeq, hspeed]
      calc (adjusted_speed c.speed 20 (330 - c.x)) ^ 2 ≤
          5 * ((330 - c.x) - (4 / 75) * adjusted_speed c.speed 20 (330 - c.x)) + 310 := haI
        _ = 5 * (330 - (c.x + (4 / 75) * adjusted_speed c.speed 20 (330 - c.x))) + 310 := by
          ring
    · intro hlo
      rw [hspeed]
      exact halow hlo

/-- One tick of a not-yet-stopped car on the left approach (mirror of
`move_prestop_right`). -/
lemma move_prestop_left (c : Car) (os : List Car)
    (hst : c.has_stopped_at_crossroad = false) (htm : c.stop_timer = 0)
    (hdir : c.direction = Direction.left) (hdx : c.dx = -1) (hdy : c.dy = 0)
    (hx : 470 < c.x) (h0 : 0 ≤ c.speed) (h20 : c.speed ≤ 20) (hmax : c.max_speed = 20)
    (hI : c.speed ^ 2 ≤ 5 * (c.x - 470) + 310) :
    (c.x - 470 < 1 →
      (Car.move c os).has_stopped_at_crossroad = true ∧ (Car.move c os).speed = 0 ∧
      (Car.move c os).stop_timer = 59 ∧ (Car.move c os).x = c.x ∧
      (Car.move c os).direction = c.direction ∧
      (Car.move c os).destination = c.destination ∧
      (Car.move c os).max_speed = c.max_speed) ∧
    (1 ≤ c.x - 470 →
      (Car.move c os).has_stopped_at_crossroad = false ∧
      (Car.move c os).stop_timer = 0 ∧
      (Car.move c os).direction = Direction.left ∧
      (Car.move c os).destination = c.destination ∧
      (Car.move c os).max_speed = 20 ∧
      (Car.move c os).dx = -1 ∧ (Car.move c os).dy = 0 ∧ (Car.move c os).y = c.y ∧
      (Car.move c os).has_turned = c.has_turned ∧
      0 ≤ (Car.move c os).speed ∧ (Car.move c os).speed ≤ 20 ∧
      (Car.move c os).x = c.x - (4 / 75) * (Car.move c os).speed ∧
      470 < (Car.move c os).x ∧
      (Car.move c os).speed ^ 2 ≤ 5 * ((Car.move c os).x - 470) + 310) := by
  have hguard : ¬(c.has_stopped_at_crossroad = true ∧ can_proceed c os = false ∧
      c.has_turned = false) := by
    rintro ⟨h1, _, _⟩
    rw [hst] at h1
    exact Bool.false_ne_true h1
  have hkick : kick_speed c = c := kick_speed_not_stopped c hst
  have hdist : get_distance_to_stop_target c = c.x - 470 :=
    dist_prestop_left c hst hdir hdx hx
  constructor
  · intro hnear
    have hmove : Car.move c os =
        { c with speed := 0, stop_timer := 59, has_stopped_at_crossroad := true } := by
      unfold Car.move
      dsimp only
      rw [if_neg hguard, hkick, hdist, update_speed_near c _ hnear htm]
      rw [if_pos (by norm_num [STOP_TIME])]
      norm_num [STOP_TIME]
    rw [hmove]
    exact ⟨rfl, rfl, rfl, rfl, rfl, rfl, rfl⟩
  · intro hfar
    obtain ⟨ha0, ha20, hstep, haI, _⟩ :=
      adjusted_speed_step c.speed (c.x - 470) hfar h0 h20 hI
    have hmove : Car.move c os = update_position
        { c with speed := adjusted_speed c.speed 20 (c.x - 470) } := by
      unfold Car.move
      dsimp only
      rw [if_neg hguard, hkick, hdist, update_speed_far c _ (by linarith), hmax]
      rw [if_neg (by rw [htm]; norm_num)]
      rw [check_turn_prestop_left _ (by exact hdir) (by dsimp only; linarith)]
    have hxeq : (Car.move c os).x =
        c.x - (4 / 75) * adjusted_speed c.speed 20 (c.x - 470) := by
      rw [hmove]
      unfold update_position
      dsimp only
      rw [hdx]
      norm_num [PIXELS_PER_METER, WIDTH, ROAD_LENGTH, FPS]
      ring
    have hspeed : (Car.move c os).speed = adjusted_speed c.speed 20 (c.x - 470) := by
      rw [hmove]; rfl
    refine ⟨?_, ?_, ?_, ?_, ?_, ?_, ?_, ?_, ?_, ?_, ?_, ?_, ?_, ?_⟩
    · rw [hmove]; exact hst
    · rw [hmove]; exact htm
    · rw [hmove]; exact hdir
    · rw [hmove]; rfl
    · rw [hmove]; exact hmax
    · rw [hmove]; exact hdx
    · rw [hmove]; exact hdy
    · rw [hmove]; unfold update_position; dsimp only; rw [hdy]; ring
    · rw [hmove]; rfl
    · rw [hspeed]; exact ha0
    · rw [hspeed]; exact ha20
    · rw [hxeq, hspeed]
    · rw [hxeq]; linarith
    · rw [hxeq, hspeed]
      calc (adjusted_speed c.speed 20 (c.x - 470)) ^ 2 ≤
          5 * ((c.x - 470) - (4 / 75) * adjusted_speed c.speed 20 (c.x - 470)) + 310 := haI
        _ = 5 * ((c.x - (4 / 75) * adjusted_speed c.speed 20 (c.x - 470)) - 470) + 310 := by
          ring

/-! ## Claim C3: the single right→right vehicle -/

/-- Invariant of the single right→right car while it has not yet stopped. -/
def good3 (c : Car) : Prop :=
  c.has_stopped_at_crossroad = false ∧ c.stop_timer = 0 ∧
  c.direction = Direction.right ∧ c.dx = 1 ∧ c.dy = 0 ∧ c.x < 330 ∧
  28 / 15 ≤ c.speed ∧ c.speed ≤ 20 ∧ c.max_speed = 20 ∧
  c.speed ^ 2 ≤ 5 * (330 - c.x) + 310

lemma run3_stopped_le {m n : Nat} (hmn : m ≤ n)
    (h : (run3 m).has_stopped_at_crossroad = true) :
    (run3 n).has_stopped_at_crossroad = true := by
  induction n with
  | zero =>
    obtain rfl := Nat.le_zero.mp hmn
    exact h
  | succ n ih =>
    rcases eq_or_lt_of_le hmn with rfl | hlt
    · exact h
    · exact move_stopped_mono _ _ (ih (Nat.lt_succ_iff.mp hlt))

/-- While the single right→right car has not stopped, the invariant holds and
its position has advanced by at least `112/1125` per tick. -/
lemma run3_good (n : Nat) (h : (run3 n).has_stopped_at_crossroad = false) :
    good3 (run3 n) ∧ -25 + (n : ℚ) * (112 / 1125) ≤ (run3 n).x := by
  induction n with
  | zero =>
    constructor
    · refine ⟨rfl, rfl, rfl, rfl, rfl, ?_, ?_, ?_, rfl, ?_⟩ <;>
        norm_num [run3, spawnCar, initial_position, CAR_WIDTH, CENTER_Y, LANE_WIDTH]
    · norm_num [run3, spawnCar, initial_position, CAR_WIDTH]
  | succ n ih =>
    have hn : (run3 n).has_stopped_at_crossroad = false := by
      rcases hb : (run3 n).has_stopped_at_crossroad with _ | _
      · rfl
      · exact absurd (run3_stopped_le (Nat.le_succ n) hb) (by rw [h]; exact Bool.false_ne_true)
    obtain ⟨hg, hxlo⟩ := ih hn
    obtain ⟨hst, htm, hdir, hdx, hdy, hx, hlo, h20, hmax, hI⟩ := hg
    have hp := move_prestop_right (run3 n) [run3 n] hst htm hdir hdx hdy hx
      (by linarith) h20 hmax hI
    have hsucc : run3 (n + 1) = Car.move (run3 n) [run3 n] := rfl
    rcases lt_or_le (330 - (run3 n).x) 1 with hnear | hfar
    · exfalso
      have hstop := (hp.1 hnear).1
      rw [← hsucc] at hstop
      rw [h] at hstop
      exact Bool.false_ne_true hstop
    · obtain ⟨h1, h2, h3, _, h5, h6, h7, _, _, h10, h11, h12, h13, h14, h15⟩ := hp.2 hfar
      rw [← hsucc] at h1 h2 h3 h5 h6 h7 h10 h11 h12 h13 h14 h15
      have hs28 : 28 / 15 ≤ (run3 (n + 1)).speed := h15 hlo
      refine ⟨⟨h1, h2, h3, h6, h7, h13, hs28, h11, h5, h14⟩, ?_⟩
      rw [h12]
      push_cast
      nlinarith [hs28]

/-- The single right→right vehicle has performed its stop by tick 3600: were
it still cruising, its stop line at `x = 330` would already be behind it. -/
lemma run3_stops : (run3 3600).has_stopped_at_crossroad = true := by
  rcases hb : (run3 3600).has_stopped_at_crossroad with _ | _
  · exfalso
    obtain ⟨hg, hxlo⟩ := run3_good 3600 hb
    have hx : (run3 3600).x < 330 := hg.2.2.2.2.2.1
    norm_num at hxlo
    linarith
  · rfl

/-- Claim C3 counterexample: in the run of the single vehicle spawned from
the right with destination RIGHT and no other vehicles, the vehicle *does*
set `has_stopped_at_crossroad` (by tick 3600), contradicting the claim that
it never stops. -/
theorem singleRight_vehicle_sets_stop_flag :
    (run3 3600).has_stopped_at_crossroad = true := run3_stops

/-- Claim C3 as amended: the single right→right vehicle, although its
right-of-way is always granted, stops exactly once at its stop line: at some
tick it records the stop, its speed is 0 and the stop timer is running, and
the stop flag stays set forever after. -/
theorem singleRight_vehicle_stops_exactly_once :
    ∃ n, (run3 n).has_stopped_at_crossroad = true ∧ (run3 n).speed = 0 ∧
      (run3 n).stop_timer = 59 ∧
      ∀ m, n ≤ m → (run3 m).has_stopped_at_crossroad = true := by
  classical
  have hex : ∃ n, (run3 n).has_stopped_at_crossroad = true := ⟨3600, run3_stops⟩
  have hstop : (run3 (Nat.find hex)).has_stopped_at_crossroad = true := Nat.find_spec hex
  have hn0 : Nat.find hex ≠ 0 := by
    intro h0
    rw [h0] at hstop
    have hzero : (run3 0).has_stopped_at_crossroad = false := rfl
    rw [hzero] at hstop
    exact Bool.false_ne_true hstop
  obtain ⟨m, hm⟩ : ∃ m, Nat.find hex = m + 1 :=
    ⟨Nat.find hex - 1, (Nat.succ_pred_eq_of_pos (Nat.pos_of_ne_zero hn0)).symm⟩
  have hmlt : m < Nat.find hex := by omega
  have hmn : (run3 m).has_stopped_at_crossroad = false := by
    rcases hb : (run3 m).has_stopped_at_crossroad with _ | _
    · rfl
    · exact absurd hb (Nat.find_min hex hmlt)
  obtain ⟨hg, _⟩ := run3_good m hmn
  obtain ⟨hst, htm, hdir, hdx, hdy, hx, hlo, h20, hmax, hI⟩ := hg
  have hp := move_prestop_right (run3 m) [run3 m] hst htm hdir hdx hdy hx
    (by linarith) h20 hmax hI
  have hsucc : run3 (m + 1) = Car.move (run3 m) [run3 m] := rfl
  rcases lt_or_le (330 - (run3 m).x) 1 with hnear | hfar
  · obtain ⟨ha, hb2, hc, _⟩ := hp.1 hnear
    rw [← hsucc] at ha hb2 hc
    exact ⟨m + 1, ha, hb2, hc, fun k hk => run3_stopped_le hk ha⟩
  · exfalso
    have hns := (hp.2 hfar).1
    rw [← hsucc] at hns
    rw [hm, hns] at hstop
    exact Bool.false_ne_true hstop

/-! ## The reachable-state invariant -/

/-- Per-direction constraints satisfied by every reachable car: a car's
destination is in the valid subset for its direction of travel, a downward
car is necessarily a turned car (and turning happens only after the stop),
and no car ever travels from the top. -/
def dirOK (c : Car) : Prop :=
  match c.direction with
  | Direction.right => c.destination = Destination.right ∨ c.destination = Destination.bottom
  | Direction.left => c.destination = Destination.left ∨ c.destination = Destination.bottom
  | Direction.bottom => c.destination = Destination.bottom ∧
      c.has_stopped_at_crossroad = true
  | Direction.top => False

/-- Geometry of a car that has not yet performed its stop: it is on the
right or left approach, short of its stop line, with the braking invariant. -/
def preStop (c : Car) : Prop :=
  match c.direction with
  | Direction.right => c.dx = 1 ∧ c.dy = 0 ∧ c.x < 330 ∧
      c.speed ^ 2 ≤ 5 * (330 - c.x) + 310
  | Direction.left => c.dx = -1 ∧ c.dy = 0 ∧ 470 < c.x ∧
      c.speed ^ 2 ≤ 5 * (c.x - 470) + 310
  | _ => False

/-- The full reachable-state invariant of one car. -/
def InvCar (c : Car) : Prop :=
  0 ≤ c.speed ∧ c.speed ≤ c.max_speed ∧ c.max_speed = 20 ∧ dirOK c ∧
  (c.has_stopped_at_crossroad = false → c.stop_timer = 0 ∧ preStop c)

lemma stop_dist_nonneg (c : Car) : 0 ≤ get_distance_to_stop_target c := by
  unfold get_distance_to_stop_target
  split_ifs
  · norm_num
  · exact abs_nonneg _
  · exact abs_nonneg _

/-- Speed and max-speed bounds are preserved by `update_speed` for any
nonnegative distance. -/
lemma update_speed_speed_bounds (c : Car) (d : ℚ) (h0 : 0 ≤ c.speed)
    (hM : c.speed ≤ c.max_speed) (hd : 0 ≤ d) :
    0 ≤ (update_speed c d).speed ∧ (update_speed c d).speed ≤ (update_speed c d).max_speed := by
  obtain ⟨ha, hb⟩ := adjusted_speed_bounds c.speed c.max_speed d h0 hM hd
  unfold update_speed
  dsimp only
  split_ifs with h1 h2
  · exact ⟨le_refl 0, le_trans h0 hM⟩
  · exact ⟨le_refl 0, le_trans h0 hM⟩
  · exact ⟨ha, hb⟩

lemma kick_speed_speed_bounds (c : Car) (h0 : 0 ≤ c.speed) (hM : c.speed ≤ c.max_speed) :
    0 ≤ (kick_speed c).speed ∧ (kick_speed c).speed ≤ (kick_speed c).max_speed := by
  unfold kick_speed
  split_ifs
  · constructor
    · exact le_min (le_trans h0 hM) (by norm_num [ACCELERATION, FPS])
    · exact min_le_left _ _
  · exact ⟨h0, hM⟩

/-- The speed bounds `0 ≤ speed ≤ max_speed` are preserved by one tick of any
car against any neighbour list. -/
lemma move_speed_bounds (c : Car) (os : List Car) (h0 : 0 ≤ c.speed)
    (hM : c.speed ≤ c.max_speed) :
    0 ≤ (Car.move c os).speed ∧ (Car.move c os).speed ≤ (Car.move c os).max_speed := by
  unfold Car.move
  dsimp only
  split_ifs with h1 h2
  · exact ⟨h0, hM⟩
  · obtain ⟨ha, hb⟩ := kick_speed_speed_bounds c h0 hM
    obtain ⟨hc, hd⟩ := update_speed_speed_bounds (kick_speed c) _ ha hb (stop_dist_nonneg _)
    exact ⟨hc, hd⟩
  · obtain ⟨ha, hb⟩ := kick_speed_speed_bounds c h0 hM
    obtain ⟨hc, hd⟩ := update_speed_speed_bounds (kick_speed c) _ ha hb (stop_dist_nonneg _)
    rw [update_position_speed, update_position_max_speed, check_turn_speed,
      check_turn_max_speed]
    exact ⟨hc, hd⟩

lemma dirOK_of_fields {c c' : Car} (hdir : c'.direction = c.direction)
    (hdest : c'.destination = c.destination)
    (hstop : c.has_stopped_at_crossroad = true → c'.has_stopped_at_crossroad = true)
    (h : dirOK c) : dirOK c' := by
  unfold dirOK at h ⊢
  rw [hdir, hdest]
  rcases hD : c.direction with _ | _ | _ | _ <;> rw [hD] at h <;> dsimp only
  · exact h
  · exact h
  · exact h
  · exact ⟨h.1, hstop h.2⟩

lemma turn_direction_bottom (c : Car) (hdb : c.destination = Destination.bottom) :
    (turn c).direction = Direction.bottom := by
  simp [turn, hdb]

lemma turn_dirOK_bottom (c : Car) (hdb : c.destination = Destination.bottom)
    (hs : c.has_stopped_at_crossroad = true) : dirOK (turn c) := by
  simp only [turn, hdb, if_true, dirOK]
  exact ⟨trivial, hs⟩

/-- `check_turn` preserves `dirOK` for a stopped car, and can only keep the
direction or turn it to BOTTOM. -/
lemma check_turn_dirOK (c : Car) (hd : dirOK c) (hs : c.has_stopped_at_crossroad = true) :
    dirOK (check_turn c) ∧
      ((check_turn c).direction = c.direction ∨
        (check_turn c).direction = Direction.bottom) := by
  unfold check_turn
  split_ifs with h1 h2 h3 h4 h5 h6 h7
  · exact ⟨hd, Or.inl rfl⟩
  · exact ⟨turn_dirOK_bottom c h2.2 hs, Or.inr (turn_direction_bottom c h2.2)⟩
  · exact ⟨hd, Or.inl rfl⟩
  · exact ⟨turn_dirOK_bottom c h4.2 hs, Or.inr (turn_direction_bottom c h4.2)⟩
  · exact ⟨hd, Or.inl rfl⟩
  · have hdb : c.destination = Destination.bottom := by
      unfold dirOK at hd
      rw [h6] at hd
      exact hd.1
    exact ⟨turn_dirOK_bottom c hdb hs, Or.inr (turn_direction_bottom c hdb)⟩
  · exact ⟨hd, Or.inl rfl⟩
  · exact ⟨hd, Or.inl rfl⟩

/-- One tick of a stopped car preserves the invariant and keeps the direction
or turns it to BOTTOM. -/
lemma move_stopped_InvCar (c : Car) (os : List Car)
    (hs : c.has_stopped_at_crossroad = true) (h : InvCar c) :
    InvCar (Car.move c os) ∧
      ((Car.move c os).direction = c.direction ∨
        (Car.move c os).direction = Direction.bottom) := by
  obtain ⟨h0, hM, hmax, hd, _⟩ := h
  obtain ⟨hb0, hbM⟩ := move_speed_bounds c os h0 hM
  have hmax' : (Car.move c os).max_speed = 20 := by rw [move_max_speed]; exact hmax
  have hstop' : (Car.move c os).has_stopped_at_crossroad = true := move_stopped_mono c os hs
  have hvac : (Car.move c os).has_stopped_at_crossroad = false →
      (Car.move c os).stop_timer = 0 ∧ preStop (Car.move c os) := by
    intro hf
    rw [hstop'] at hf
    exact absurd hf (by norm_num)
  have hc2s : (update_speed (kick_speed c)
      (get_distance_to_stop_target (kick_speed c))).has_stopped_at_crossroad = true := by
    apply update_speed_stopped_mono
    rw [kick_speed_stopped]
    exact hs
  have hc2d : dirOK (update_speed (kick_speed c)
      (get_distance_to_stop_target (kick_speed c))) := by
    apply dirOK_of_fields (c := c) _ _ _ hd
    · rw [update_speed_direction, kick_speed_direction]
    · rw [update_speed_destination, kick_speed_destination]
    · intro _; exact hc2s
  refine ⟨⟨hb0, hbM, hmax', ?_, hvac⟩, ?_⟩
  · -- dirOK of the moved car
    unfold Car.move
    dsimp only
    split_ifs with h1 h2
    · exact hd
    · exact dirOK_of_fields (c := update_speed (kick_speed c) _) rfl rfl (fun h => h) hc2d
    · obtain ⟨hctd, _⟩ := check_turn_dirOK _ hc2d hc2s
      refine dirOK_of_fields (c := check_turn (update_speed (kick_speed c) _)) ?_ ?_ ?_ hctd
      · rw [update_position_direction]
      · rw [update_position_destination]
      · intro hh; rw [update_position_stopped]; exact hh
  · -- direction analysis
    unfold Car.move
    dsimp only
    split_ifs with h1 h2
    · exact Or.inl rfl
    · left
      rw [update_speed_direction, kick_speed_direction]
    · obtain ⟨_, hdd⟩ := check_turn_dirOK _ hc2d hc2s
      rw [update_position_direction]
      rcases hdd with hdd | hdd
    
      · left
        rw [hdd, update_speed_direction, kick_speed_direction]
      · right
        exact hdd

/-- One tick of any car preserves the reachable-state invariant, and the
direction is either kept or turned to BOTTOM. -/
lemma move_InvCar (c : Car) (os : List Car) (h : InvCar c) :
    InvCar (Car.move c os) ∧
      ((Car.move c os).direction = c.direction ∨
        (Car.move c os).direction = Direction.bottom) := by
  rcases hs : c.has_stopped_at_crossroad with _ | _
  case true => exact move_stopped_InvCar c os hs h
  case false =>
  obtain ⟨h0, hM, hmax, hd, hpre⟩ := h
  obtain ⟨htm, hps⟩ := hpre hs
  have h20 : c.speed ≤ 20 := hmax ▸ hM
  have hnotrue : ¬(false = true) := by norm_num
  rcases hdir : c.direction with _ | _ | _ | _
  case left =>
    have hps' := hps
    unfold preStop at hps'
    rw [hdir] at hps'
    obtain ⟨hdx, hdy, hx, hI⟩ := hps'
    have hp := move_prestop_left c os hs htm hdir hdx hdy hx h0 h20 hmax hI
    rcases lt_or_le (c.x - 470) 1 with hnear | hfar
    · obtain ⟨ha, hb, _, _, hdir', hdest', hmax'⟩ := hp.1 hnear
      refine ⟨⟨by rw [hb], by rw [hb, hmax', hmax]; norm_num, by rw [hmax', hmax], ?_, ?_⟩,
        Or.inl (by rw [hdir', hdir])⟩
      · exact dirOK_of_fields hdir' hdest' (fun _ => ha) hd
      · intro hf
        rw [ha] at hf
        exact absurd hf.symm hnotrue
    · obtain ⟨h1, h2, h3, h4, h5, h6, h7, _, _, h10, h11, h12, h13, h14⟩ := hp.2 hfar
      have hstopimp : c.has_stopped_at_crossroad = true →
          (Car.move c os).has_stopped_at_crossroad = true := by
        intro hf
        rw [hs] at hf
        exact absurd hf hnotrue
      refine ⟨⟨h10, by rw [h5]; exact h11, h5, ?_, ?_⟩, Or.inl h3⟩
      · exact dirOK_of_fields (by rw [h3, hdir]) h4 hstopimp hd
      · intro _
        refine ⟨h2, ?_⟩
        unfold preStop
        rw [h3]
        exact ⟨h6, h7, h13, h14⟩
  case right =>
    have hps' := hps
    unfold preStop at hps'
    rw [hdir] at hps'
    obtain ⟨hdx, hdy, hx, hI⟩ := hps'
    have hp := move_prestop_right c os hs htm hdir hdx hdy hx h0 h20 hmax hI
    rcases lt_or_le (330 - c.x) 1 with hnear | hfar
    · obtain ⟨ha, hb, _, _, hdir', hdest', hmax'⟩ := hp.1 hnear
      refine ⟨⟨by rw [hb], by rw [hb, hmax', hmax]; norm_num, by rw [hmax', hmax], ?_, ?_⟩,
        Or.inl (by rw [hdir', hdir])⟩
      · exact dirOK_of_fields hdir' hdest' (fun _ => ha) hd
      · intro hf
        rw [ha] at hf
        exact absurd hf.symm hnotrue
    · obtain ⟨h1, h2, h3, h4, h5, h6, h7, _, _, h10, h11, h12, h13, h14, _⟩ := hp.2 hfar
      have hstopimp : c.has_stopped_at_crossroad = true →
          (Car.move c os).has_stopped_at_crossroad = true := by
        intro hf
        rw [hs] at hf
        exact absurd hf hnotrue
      refine ⟨⟨h10, by rw [h5]; exact h11, h5, ?_, ?_⟩, Or.inl h3⟩
      · exact dirOK_of_fields (by rw [h3, hdir]) h4 hstopimp hd
      · intro _
        refine ⟨h2, ?_⟩
        unfold preStop
        rw [h3]
        exact ⟨h6, h7, h13, h14⟩
  case top =>
    exfalso
    unfold dirOK at hd
    rw [hdir] at hd
    exact hd
  case bottom =>
    exfalso
    unfold dirOK at hd
    rw [hdir] at hd
    rw [hs] at hd
    exact absurd hd.2 hnotrue

/-! ## World-level preservation -/

/-- Any per-car property preserved by `Car.move` (against arbitrary
neighbours) is preserved by the sequential update pass. -/
lemma move_pass_pres (P : Car → Prop) (hP : ∀ c os, P c → P (Car.move c os)) :
    ∀ (todo done : List Car), (∀ c ∈ done, P c) → (∀ c ∈ todo, P c) →
      ∀ c ∈ move_pass done todo, P c := by
  intro todo
  induction todo with
  | nil =>
    intro done hdone _ c hc
    rw [move_pass] at hc
    exact hdone c hc
  | cons a todo ih =>
    intro done hdone htodo c hc
    rw [move_pass] at hc
    refine ih _ ?_ (fun x hx => htodo x (List.mem_cons_of_mem a hx)) c hc
    intro x hx
    rcases List.mem_append.mp hx with hx | hx
    · exact hdone x hx
    · rw [List.mem_singleton.mp hx]
      exact hP a _ (htodo a (List.mem_cons_self a todo))

/-- Any per-car property enjoyed by freshly spawned right/left cars is
preserved by the spawn pass. -/
lemma spawn_cars_pres (P : Car → Prop)
    (hspawn : ∀ pick, P (spawnCar Direction.right pick) ∧ P (spawnCar Direction.left pick)) :
    ∀ (o : SpawnOracle) (cars : List Car), (∀ c ∈ cars, P c) →
      ∀ c ∈ spawn_cars o cars, P c := by
  intro o cars h c hc
  unfold spawn_cars at hc
  dsimp only at hc
  split_ifs at hc with h1 h2 h3
  · rcases List.mem_append.mp hc with hc | hc
    · rcases List.mem_append.mp hc with hc | hc
      · exact h c hc
      · rw [List.mem_singleton.mp hc]; exact (hspawn o.pickRight).1
    · rw [List.mem_singleton.mp hc]; exact (hspawn o.pickLeft).2
  · rcases List.mem_append.mp hc with hc | hc
    · exact h c hc
    · rw [List.mem_singleton.mp hc]; exact (hspawn o.pickRight).1
  · rcases List.mem_append.mp hc with hc | hc
    · exact h c hc
    · rw [List.mem_singleton.mp hc]; exact (hspawn o.pickLeft).2
  · exact h c hc

/-- Any per-car property enjoyed by spawned cars and preserved by `Car.move`
holds for every car of every reachable world state. -/
lemma simRun_pres (P : Car → Prop) (hP : ∀ c os, P c → P (Car.move c os))
    (hspawn : ∀ pick, P (spawnCar Direction.right pick) ∧ P (spawnCar Direction.left pick)) :
    ∀ (os : Nat → SpawnOracle) (n : Nat), ∀ c ∈ simRun os n, P c := by
  intro os n
  induction n with
  | zero => intro c hc; exact absurd hc (List.not_mem_nil c)
  | succ n ih =>
    intro c hc
    rw [simRun, tick] at hc
    exact move_pass_pres P hP _ [] (by intro x hx; exact absurd hx (List.not_mem_nil x))
      (spawn_cars_pres P hspawn (os n) _ ih) c hc

/-- Freshly spawned right/left cars satisfy the reachable-state invariant. -/
lemma spawnCar_InvCar (pick : Bool) :
    InvCar (spawnCar Direction.right pick) ∧ InvCar (spawnCar Direction.left pick) := by
  constructor
  · refine ⟨by norm_num [spawnCar], by norm_num [spawnCar], rfl, ?_, ?_⟩
    · unfold dirOK
      rcases pick with _ | _ <;> simp [spawnCar, assign_destination]
    · intro _
      refine ⟨rfl, ?_⟩
      unfold preStop
      dsimp only [spawnCar]
      norm_num [initial_position, CAR_WIDTH, CENTER_Y, LANE_WIDTH]
  · refine ⟨by norm_num [spawnCar], by norm_num [spawnCar], rfl, ?_, ?_⟩
    · unfold dirOK
      rcases pick with _ | _ <;> simp [spawnCar, assign_destination]
    · intro _
      refine ⟨rfl, ?_⟩
      unfold preStop
      dsimp only [spawnCar]
      norm_num [initial_position, CAR_WIDTH, CENTER_Y, LANE_WIDTH, WIDTH]

/-- Every car of every reachable world state satisfies the invariant. -/
lemma simRun_InvCar (os : Nat → SpawnOracle) (n : Nat) :
    ∀ c ∈ simRun os n, InvCar c :=
  simRun_pres InvCar (fun c os' h => (move_InvCar c os' h).1) spawnCar_InvCar os n

/-- Every car of every world state just after the spawn pass satisfies the
invariant. -/
lemma afterSpawn_InvCar (os : Nat → SpawnOracle) (n : Nat) :
    ∀ c ∈ afterSpawn os n, InvCar c :=
  spawn_cars_pres InvCar spawnCar_InvCar (os n) _ (simRun_InvCar os n)

/-! ## Claim C10 -/

/-- Claim C10: in every reachable vehicle state (any oracle stream, any tick,
immediately after the spawn pass — the states against which `update_speed` is
evaluated during the update pass), the distance to the stop target is
strictly positive, so the braking division `speed^2 / (2 * distance)` never
divides by zero. -/
theorem braking_distance_always_positive (os : Nat → SpawnOracle) (n : Nat) (c : Car)
    (hc : c ∈ afterSpawn os n) : 0 < get_distance_to_stop_target c := by
  obtain ⟨h0, hM, hmax, hd, hpre⟩ := afterSpawn_InvCar os n c hc
  rcases hs : c.has_stopped_at_crossroad with _ | _
  · obtain ⟨htm, hps⟩ := hpre hs
    rcases hdir : c.direction with _ | _ | _ | _
    case left =>
      have hps' := hps
      unfold preStop at hps'
      rw [hdir] at hps'
      obtain ⟨hdx, _, hx, _⟩ := hps'
      rw [dist_prestop_left c hs hdir hdx hx]
      linarith
    case right =>
      have hps' := hps
      unfold preStop at hps'
      rw [hdir] at hps'
      obtain ⟨hdx, _, hx, _⟩ := hps'
      rw [dist_prestop_right c hs hdir hdx hx]
      linarith
    case top =>
      exfalso
      unfold preStop at hps
      rw [hdir] at hps
      exact hps
    case bottom =>
      exfalso
      unfold preStop at hps
      rw [hdir] at hps
      exact hps
  · unfold get_distance_to_stop_target
    rw [if_pos hs]
    norm_num

/-- Oracle stream for the witnesses: spawn one car from the right at every
tick where the cap and clearance allow, never from the left. -/
def osA : Nat → SpawnOracle := fun _ =>
  { coinRight := true, pickRight := true, coinLeft := false, pickLeft := true }

lemma afterSpawn_osA_zero : afterSpawn osA 0 = [spawnCar Direction.right true] := by
  simp [afterSpawn, simRun, spawn_cars, can_spawn, osA, countDir]

/-- Witness for C10: the freshly spawned right-approach car of the first tick
has its stop line 355 pixels ahead. -/
theorem braking_distance_always_positive_witness :
    0 < get_distance_to_stop_target (spawnCar Direction.right true) :=
  braking_distance_always_positive osA 0 (spawnCar Direction.right true)
    (by rw [afterSpawn_osA_zero]; exact List.mem_singleton.mpr rfl)

/-! ## Claim C5 -/

/-- C5 witness car: a freshly spawned left-approach car. -/
def carC5 : Car := spawnCar Direction.left false

/-- Claim C5: the speed bound `0 ≤ speed ≤ max_speed` holds at construction,
is preserved by every tick of any vehicle (covering acceleration, the braking
law, the forced stop and the restart kick), and consequently holds for every
vehicle at every tick of every run. -/
theorem speed_within_bounds :
    (∀ (direction : Direction) (pick : Bool),
      0 ≤ (spawnCar direction pick).speed ∧
        (spawnCar direction pick).speed ≤ (spawnCar direction pick).max_speed) ∧
    (∀ (c : Car) (os : List Car), 0 ≤ c.speed → c.speed ≤ c.max_speed →
      0 ≤ (Car.move c os).speed ∧ (Car.move c os).speed ≤ (Car.move c os).max_speed) ∧
    (∀ (os : Nat → SpawnOracle) (n : Nat), ∀ c ∈ simRun os n,
      0 ≤ c.speed ∧ c.speed ≤ c.max_speed) := by
  refine ⟨fun d p => ⟨by norm_num [spawnCar], by norm_num [spawnCar]⟩,
    fun c os h0 hM => move_speed_bounds c os h0 hM, ?_⟩
  intro os n c hc
  obtain ⟨h1, h2, _⟩ := simRun_InvCar os n c hc
  exact ⟨h1, h2⟩

/-- Witness for C5: one tick of the concrete freshly spawned left car. -/
theorem speed_within_bounds_witness :
    0 ≤ (Car.move carC5 [carC5]).speed ∧
      (Car.move carC5 [carC5]).speed ≤ (Car.move carC5 [carC5]).max_speed :=
  speed_within_bounds.2.1 carC5 [carC5] (by norm_num [carC5, spawnCar])
    (by norm_num [carC5, spawnCar])

/-! ## Claim C7: the per-approach spawn cap -/

lemma countDir_append (d : Direction) (xs ys : List Car) :
    countDir d (xs ++ ys) = countDir d xs + countDir d ys := by
  unfold countDir
  rw [List.filter_append, List.length_append]

lemma countDir_singleton (d : Direction) (c : Car) :
    countDir d [c] = if c.direction = d then 1 else 0 := by
  unfold countDir
  by_cases h : c.direction = d <;> simp [List.filter_singleton, h]

lemma countDir_nil (d : Direction) : countDir d [] = 0 := rfl

/-- The spawn pass respects the per-approach cap of 2: with both counts at
most 2 before the pass, both counts stay at most 2 after it. -/
lemma spawn_cars_count (o : SpawnOracle) (cars : List Car)
    (hr : countDir Direction.right cars ≤ 2) (hl : countDir Direction.left cars ≤ 2) :
    countDir Direction.right (spawn_cars o cars) ≤ 2 ∧
      countDir Direction.left (spawn_cars o cars) ≤ 2 := by
  have hsr : ∀ p, (spawnCar Direction.right p).direction = Direction.right := fun _ => rfl
  have hsl : ∀ p, (spawnCar Direction.left p).direction = Direction.left := fun _ => rfl
  have e1 : ∀ p, countDir Direction.right [spawnCar Direction.right p] = 1 := by
    intro p
    rw [countDir_singleton, hsr]
    simp
  have e2 : ∀ p, countDir Direction.left [spawnCar Direction.right p] = 0 := by
    intro p
    rw [countDir_singleton, hsr]
    simp
  have e3 : ∀ p, countDir Direction.right [spawnCar Direction.left p] = 0 := by
    intro p
    rw [countDir_singleton, hsl]
    simp
  have e4 : ∀ p, countDir Direction.left [spawnCar Direction.left p] = 1 := by
    intro p
    rw [countDir_singleton, hsl]
    simp
  unfold spawn_cars
  dsimp only
  split_ifs with h1 h2 h3
  · have hr' : countDir Direction.right cars < 2 := h1.1
    have hl' : countDir Direction.left cars < 2 := h2.1
    constructor
    · rw [countDir_append, countDir_append, e1, e3]
      omega
    · rw [countDir_append, countDir_append, e2, e4]
      omega
  · have hr' : countDir Direction.right cars < 2 := h1.1
    constructor
    · rw [countDir_append, e1]
      omega
    · rw [countDir_append, e2]
      omega
  · have hl' : countDir Direction.left cars < 2 := h3.1
    constructor
    · rw [countDir_append, e3]
      omega
    · rw [countDir_append, e4]
      omega
  · exact ⟨hr, hl⟩

/-- The update pass never increases the number of right- or left-direction
cars (an invariant-satisfying car either keeps its direction or turns to
BOTTOM). -/
lemma move_pass_countDir (d : Direction) (hdb : d ≠ Direction.bottom) :
    ∀ (todo done : List Car), (∀ c ∈ todo, InvCar c) →
      countDir d (move_pass done todo) ≤ countDir d done + countDir d todo := by
  intro todo
  induction todo with
  | nil =>
    intro done _
    rw [move_pass, countDir_nil]
    omega
  | cons a todo ih =>
    intro done htodo
    rw [move_pass]
    have h := ih (done ++ [Car.move a (done ++ a :: todo)])
      (fun x hx => htodo x (List.mem_cons_of_mem a hx))
    have hdir := (move_InvCar a (done ++ a :: todo)
      (htodo a (List.mem_cons_self a todo))).2
    have hone : countDir d [Car.move a (done ++ a :: todo)] ≤ countDir d [a] := by
      rw [countDir_singleton, countDir_singleton]
      rcases hdir with hdd | hdd
      · rw [hdd]
      · rw [hdd, if_neg (fun hfi => hdb hfi.symm)]
        split_ifs <;> omega
    have hcons : countDir d (a :: todo) = countDir d [a] + countDir d todo := by
      have : a :: todo = [a] ++ todo := rfl
      rw [this, countDir_append]
    rw [countDir_append] at h
    omega

/-- Both per-approach counts stay at most 2 at every tick boundary. -/
lemma simRun_count (os : Nat → SpawnOracle) (n : Nat) :
    countDir Direction.right (simRun os n) ≤ 2 ∧
      countDir Direction.left (simRun os n) ≤ 2 := by
  induction n with
  | zero =>
    constructor <;>
      · rw [simRun, countDir_nil]
        omega
  | succ n ih =>
    obtain ⟨hr, hl⟩ := ih
    obtain ⟨hr', hl'⟩ := spawn_cars_count (os n) _ hr hl
    have hinv := spawn_cars_pres InvCar spawnCar_InvCar (os n) _ (simRun_InvCar os n)
    constructor
    · have hmp := move_pass_countDir Direction.right (by decide)
        (spawn_cars (os n) (simRun os n)) [] hinv
      rw [simRun, tick]
      rw [countDir_nil] at hmp
      omega
    · have hmp := move_pass_countDir Direction.left (by decide)
        (spawn_cars (os n) (simRun os n)) [] hinv
      rw [simRun, tick]
      rw [countDir_nil] at hmp
      omega

/-- Claim C7: for every oracle stream (in particular spawn probability 1) and
every tick, the world state immediately after the spawn pass has at most 2
live vehicles per spawnable approach. -/
theorem spawn_cap_never_exceeded (os : Nat → SpawnOracle) (n : Nat) :
    countDir Direction.right (afterSpawn os n) ≤ 2 ∧
      countDir Direction.left (afterSpawn os n) ≤ 2 := by
  obtain ⟨hr, hl⟩ := simRun_count os n
  exact spawn_cars_count (os n) _ hr hl
